import Mathlib

/-!
Shallow embedding of the localization and structured-error-rendering layer
of the aura package-management tool, translated from
src/rust/aura/src/localization.rs and src/rust/aura/src/pacman.rs,
together with theorems settling the specification's claims about it.

External collaborators (the i18n_embed / fluent crates, the unic_langid tag
parser, the embedded i18n resource folder, and the aura_core error types)
are not part of the repository's source tree; where their behaviour decides
a claim they are modelled from the specification, and each such definition
says so in its doc comment.
-/

namespace Aura

/-- A bound message formatter: resolves a message id and a list of named
placeholder arguments to a formatted string.  This abstracts the rendering
face of i18n_embed's FluentLanguageLoader (what the fl! macro consults);
the Fluent resolution machinery itself is external to the repository.
Modelled from the spec: message resolution is total, so the formatter is a
plain function into String. -/
abbrev Fll := String → List (String × String) → String

/-- aura_core::git::Error.  The type lives in the external aura_core crate;
its variants are taken from the exhaustive match in localization.rs and
from the spec's data model (version-control error kinds).  Payloads whose
content is ignored by rendering are modelled as strings; filesystem paths
are modelled as their textual (utf8) form.  The Io variant is named
ioFailure here. -/
inductive GitError : Type
  | ioFailure (e : String)
  | clone (p : String)
  | pull (p : String)
  | diff (p : String)
  | readHash (e : String)

/-- Localised for aura_core::git::Error (localization.rs lines 43-53). -/
def GitError.localise (e : GitError) (fll : Fll) : String :=
  match e with
  | .ioFailure _ => fll "git-io" []
  | .clone p => fll "git-clone" [("dir", p)]
  | .pull p => fll "git-pull" [("dir", p)]
  | .diff p => fll "git-diff" [("file", p)]
  | .readHash _ => fll "git-hash" []

/-- aura_core::aur::Error, variants from the match in localization.rs
lines 55-68 (remote-package error kinds in the spec's data model). -/
inductive AurError : Type
  | git (e : GitError)
  | faurFetch (p : String)
  | packageDoesNotExist (p : String)
  | tooManyFaurResults (p : String)

/-- Localised for aura_core::aur::Error (localization.rs lines 55-68). -/
def AurError.localise (e : AurError) (fll : Fll) : String :=
  match e with
  | .git g => g.localise fll
  | .faurFetch p => fll "faur-fetch" [("pkg", p)]
  | .packageDoesNotExist p => fll "faur-unknown" [("pkg", p)]
  | .tooManyFaurResults p => fll "faur-too-many" [("pkg", p)]

/-- aura_core::aur::dependencies::Error, generic over an inner renderable
error type E; variants from the exhaustive match in localization.rs lines
70-101 (dependency-resolution error kinds in the spec's data model). -/
inductive DepsError (E : Type) : Type
  | poisonedMutex
  | r2d2 (e : String)
  | srcinfo (p : String) (e : String)
  | git (e : GitError)
  | resolutions (es : List (DepsError E))
  | doesntExist (p : String)
  | doesntExistWithParent (a : String) (b : String)
  | malformedGraph
  | cyclicDep (p : String)
  | faur (e : E)

mutual

/-- Localised for deps::Error<E> (localization.rs lines 70-101), with the
inner type's localise capability passed as the function le.  The
Resolutions arm builds the header line, an empty string, and one bullet
per sub-error, then intersperses a newline and concatenates (the source's
itertools::intersperse followed by collect::<String>). -/
def DepsError.localise {E : Type} (le : E → Fll → String) (fll : Fll) :
    DepsError E → String
  | .poisonedMutex => fll "err-mutex" []
  | .r2d2 _ => fll "err-pool-get" []
  | .srcinfo p _ => fll "err-srcinfo" [("file", p)]
  | .git e => e.localise fll
  | .resolutions es =>
      String.join (List.intersperse "\n"
        (fll "dep-multi" [] :: "" :: DepsError.localiseBullets le fll es))
  | .doesntExist p => fll "dep-exist" [("pkg", p)]
  | .doesntExistWithParent a b => fll "dep-exist-par" [("pkg", a), ("par", b)]
  | .malformedGraph => fll "dep-graph" []
  | .cyclicDep p => fll "dep-cycle" [("pkg", p)]
  | .faur e => le e fll

/-- The per-sub-error bullet lines of the Resolutions arm:
es.iter().map(|e| format!(" - {}", e.localise(fll))). -/
def DepsError.localiseBullets {E : Type} (le : E → Fll → String) (fll : Fll) :
    List (DepsError E) → List String
  | [] => []
  | e :: es =>
      (" - " ++ DepsError.localise le fll e) :: DepsError.localiseBullets le fll es

end

/-- crate::pacman::Error (pacman.rs lines 10-15). -/
inductive PacError : Type
  | externalCmd (e : String)
  | installFromTarball
  | installFromRepos
  | misc

/-- The Nested impl for pacman::Error (pacman.rs lines 17-26), viewed as
the list of diagnostic-log entries the hook emits: the ExternalCmd arm
logs the underlying I/O error's display text, every other arm logs
nothing. -/
def PacError.nested : PacError → List String
  | .externalCmd e => [e]
  | .installFromTarball => []
  | .installFromRepos => []
  | .misc => []

/-- Localised for pacman::Error (pacman.rs lines 28-37). -/
def PacError.localise (e : PacError) (fll : Fll) : String :=
  match e with
  | .externalCmd _ => fll "pacman-external" []
  | .installFromTarball => fll "pacman-u" []
  | .installFromRepos => fll "pacman-s" []
  | .misc => fll "pacman-misc" []

/-- Outcome of spawning the external command, the boundary the pacman.rs
functions sit on: either the spawn itself fails with an I/O error (its
display text), or the process runs to completion and exits with an
optional exit code (none models termination without an exit code, e.g. by
signal). -/
inductive CmdResult : Type
  | spawnErr (e : String)
  | exited (code : Option Nat)

/-- std::process::ExitStatus::success: termination is successful exactly
when the process exited with code 0. -/
def statusSuccess (code : Option Nat) : Bool := code == some 0

/-- fn pacman (pacman.rs lines 40-52).  The spawned command's behaviour is
external, so the function is parameterized by the argument vector and by
the spawn outcome: .status() yielding Err maps to Error::ExternalCmd, a
non-success exit status to Error::Misc, success to Ok(()). -/
def pacman (_args : List String) (outcome : CmdResult) : Except PacError Unit :=
  match outcome with
  | .spawnErr e => .error (.externalCmd e)
  | .exited c => if statusSuccess c then .ok () else .error .misc

/-- fn sudo_pacman (pacman.rs lines 55-72): same failure mapping as
pacman, prefixed by the elevation mechanism and a fixed subcommand. -/
def sudo_pacman (_command : String) (_flags _args : List String)
    (outcome : CmdResult) : Except PacError Unit :=
  match outcome with
  | .spawnErr e => .error (.externalCmd e)
  | .exited c => if statusSuccess c then .ok () else .error .misc

/-- fn pacman_install_from_tarball (pacman.rs lines 91-99):
sudo_pacman("-U", flags, args).map_err(|_| Error::InstallFromTarball).
The second component is the diagnostic log emitted during the call; the
source performs no logging in this function, hence the constant empty
log. -/
def pacman_install_from_tarball (flags args : List String)
    (outcome : CmdResult) : Except PacError Unit × List String :=
  (Except.mapError (fun _ => PacError.installFromTarball)
    (sudo_pacman "-U" flags args outcome), [])

/-- fn pacman_install_from_repos (pacman.rs lines 102-110):
sudo_pacman("-S", flags, args).map_err(|_| Error::InstallFromRepos).
As with the tarball wrapper, the source performs no logging here. -/
def pacman_install_from_repos (flags args : List String)
    (outcome : CmdResult) : Except PacError Unit × List String :=
  (Except.mapError (fun _ => PacError.installFromRepos)
    (sudo_pacman "-S" flags args outcome), [])

/-- Modelled from the spec: the fixed base (fallback) language tag of the
embedded catalog set (the loader macro's fallback language, configured
outside src/; the source's doc comment calls it "fallback to English"). -/
def baseTag : String := "en-US"

/-- The fixed-width prefix l[0..5] taken from an embedded resource entry
name (entry names are ASCII paths such as "en-US/aura.ftl", so the first
five bytes are the first five characters). -/
def tagSlice (l : String) : List Char := l.toList.take 5

/-- Modelled from the spec: the external unic_langid parser, restricted to
the fixed-width prefixes the scan feeds it; a standard five-character
locale tag has the shape ll-CC (two lowercase letters, a hyphen, two
uppercase letters).  Anything else is rejected. -/
def parseLangTag : List Char → Option String
  | [a, b, sep, c, d] =>
      if a.isLower && b.isLower && (sep == '-') && c.isUpper && d.isUpper then
        some (String.mk [a, b, sep, c, d])
      else none
  | _ => none

/-- fn available_languages (localization.rs lines 143-149), parameterized
by the embedded resource entry names (Translations::iter() is build-time
embedded data, not part of src/): filter-map the parsed five-character
prefixes, then sort ascending (Vec::sort, a stable ascending sort,
modelled by insertion sort).  Note the source has no deduplication
step. -/
def available_languages (entries : List String) : List String :=
  List.insertionSort (· ≤ ·) (entries.filterMap (fun l => parseLangTag (tagSlice l)))

/-- The loading face of i18n_embed's FluentLanguageLoader: which language
it is currently bound to, its fixed fallback language, and the
bidirectional-isolation formatting flag. -/
structure FluentLanguageLoader where
  current : String
  fallback : String
  useIsolating : Bool
deriving DecidableEq

/-- The loader produced by the fluent_language_loader!() macro: bound to
its fallback language, isolation enabled.  Modelled from the spec: the
macro and its configuration live outside src/. -/
def fluent_language_loader : FluentLanguageLoader :=
  { current := baseTag, fallback := baseTag, useIsolating := true }

/-- The catalog-load failure (i18n_embed::I18nEmbedError). -/
inductive I18nEmbedError : Type
  | languageMissing
deriving DecidableEq

/-- A parsed message catalog, modelled by its list of message ids (the
only content the claims inspect). -/
abbrev Catalog := List String

/-- The embedded Catalog Store: which language tags have a (parsed)
catalog, and its message ids.  The actual bundled catalogs are build-time
embedded data outside src/, so the store is a parameter. -/
abbrev CatalogStore := String → Option Catalog

/-- Modelled from the spec: i18n_embed's load_languages over the embedded
store, for a single requested language.  If a catalog exists for the
requested tag the loader binds to that tag; otherwise it binds to its
fallback tag; if even the fallback has no loadable catalog, the call fails
with a catalog-load error.  (Catalogs are modelled post-parse; the spec
treats a parse failure the same as a missing loadable catalog, fatal at
startup.) -/
def load_languages (store : CatalogStore) (ld : FluentLanguageLoader)
    (req : String) : Except I18nEmbedError FluentLanguageLoader :=
  match store req with
  | some _ => .ok { ld with current := req }
  | none =>
      match store ld.fallback with
      | some _ => .ok { ld with current := ld.fallback }
      | none => .error .languageMissing

/-- fn load (localization.rs lines 113-123): create the macro loader, load
the requested language (or, when absent, the loader's fallback language),
propagate any failure, then disable bidirectional isolation. -/
def load (store : CatalogStore) (lang : Option String) :
    Except I18nEmbedError FluentLanguageLoader :=
  let loader := fluent_language_loader
  match load_languages store loader (lang.getD loader.fallback) with
  | .ok l => .ok { l with useIsolating := false }
  | .error e => .error e

/-- The body of fn load_all's collect::<Result<HashMap, _>>(): one fresh
macro loader per language, fail-fast on the first load failure.  The
resulting association list models the HashMap (keys in first
components). -/
def load_all_go (store : CatalogStore) :
    List String → Except I18nEmbedError (List (String × FluentLanguageLoader))
  | [] => .ok []
  | lang :: rest =>
      match load_languages store fluent_language_loader lang with
      | .error e => .error e
      | .ok l =>
          match load_all_go store rest with
          | .error e => .error e
          | .ok m => .ok ((lang, l) :: m)

/-- fn load_all (localization.rs lines 129-140). -/
def load_all (entries : List String) (store : CatalogStore) :
    Except I18nEmbedError (List (String × FluentLanguageLoader)) :=
  load_all_go store (available_languages entries)

/-- The Consistency Checker, fn no_extra_localizations (localization.rs
lines 157-170), viewed as a predicate: true exactly when the test would
panic, i.e. when some available language's catalog holds a message id the
base (English) catalog does not have. -/
def no_extra_localizations (entries : List String) (store : CatalogStore) : Bool :=
  (available_languages entries).any (fun lang =>
    ((store lang).getD []).any (fun m =>
      !(((store baseTag).getD []).contains m)))

/-- The closed set of message ids the rendering dispatch uses (every id
appearing in a fl! call in localization.rs and pacman.rs). -/
def auraMsgIds : List String :=
  ["git-io", "git-clone", "git-pull", "git-diff", "git-hash",
   "faur-fetch", "faur-unknown", "faur-too-many",
   "err-mutex", "err-pool-get", "err-srcinfo",
   "dep-multi", "dep-exist", "dep-exist-par", "dep-graph", "dep-cycle",
   "pacman-external", "pacman-u", "pacman-s", "pacman-misc"]

/-- A valid bound loader: resolving any of the program's message ids
yields non-empty text (the spec's render-totality invariant presupposes
the catalogs' templates render to non-empty messages). -/
def ValidLoader (fll : Fll) : Prop :=
  ∀ id args, id ∈ auraMsgIds → fll id args ≠ ""

/-- A concrete valid loader used by witnesses and counterexamples: it
renders every message id as the id itself. -/
def exampleLoader : Fll := fun id _ => id

/-- A concrete localise capability for a trivial inner error type. -/
def exampleInner : Unit → Fll → String := fun _ _ => "inner"

/-- A concrete store used by witnesses: catalogs exist for en-US and
de-DE only. -/
def exampleStore : CatalogStore :=
  fun t => if t = "en-US" ∨ t = "de-DE" then some ["pacman-misc"] else none

/-- A store with no catalogs at all. -/
def emptyStore : CatalogStore := fun _ => none

/-- The property claimed of the install wrappers: whenever the inner
elevated call fails and the wrapper discards that failure, the entries the
original failure's diagnostic hook would log appear in the log the
wrapper call emitted. -/
def loggedBeforeDiscard : Prop :=
  ∀ flags args outcome e,
    (sudo_pacman "-U" flags args outcome = .error e →
      ∀ entry ∈ PacError.nested e,
        entry ∈ (pacman_install_from_tarball flags args outcome).2) ∧
    (sudo_pacman "-S" flags args outcome = .error e →
      ∀ entry ∈ PacError.nested e,
        entry ∈ (pacman_install_from_repos flags args outcome).2)

/-- The rendering format C1 claims for the aggregate variant: some list of
N+1 non-empty lines joined by single newlines with no trailing separator,
whose first line is the header message and whose remaining lines are the
dash-prefixed bullets of the sub-errors in input order. -/
def aggregateClaim {E : Type} (le : E → Fll → String) (fll : Fll)
    (es : List (DepsError E)) : Prop :=
  ∃ lines : List String,
    DepsError.localise le fll (.resolutions es) =
      String.join (List.intersperse "\n" lines) ∧
    lines.length = es.length + 1 ∧
    (∀ l ∈ lines, l ≠ "") ∧
    lines.head? = some (fll "dep-multi" []) ∧
    lines.drop 1 = es.map (fun e => " - " ++ DepsError.localise le fll e)

/-- The bullet builder produces exactly the map of dash-prefixed recursive
renderings, in input order. -/
theorem localiseBullets_eq_map {E : Type} (le : E → Fll → String) (fll : Fll)
    (es : List (DepsError E)) :
    DepsError.localiseBullets le fll es =
      es.map (fun e => " - " ++ DepsError.localise le fll e) := by
  induction es with
  | nil => simp [DepsError.localiseBullets]
  | cons e es ih => simp [DepsError.localiseBullets, ih]

/-- Joining a newline-interspersed list whose first piece is non-empty
yields a non-empty string. -/
theorem join_intersperse_cons_ne (h : String) (t : List String) (sep : String)
    (hh : h ≠ "") : String.join (List.intersperse sep (h :: t)) ≠ "" := by
  intro hcontra
  have hd : (String.join (List.intersperse sep (h :: t))).data = [] := by
    rw [hcontra]
  rw [String.data_join] at hd
  cases t with
  | nil =>
    simp [List.intersperse] at hd
    exact hh (String.ext hd)
  | cons x xs =>
    simp [List.intersperse] at hd
    exact hh (String.ext hd.1)

/-- C10: pacman's run classifies the outcome exactly: a spawn failure
maps to the spawn-failure error carrying the underlying I/O cause, a run
that exits with any status other than exit code 0 maps to the generic
failure, and an exit with code 0 returns success with no value. -/
theorem pacman_classification (args : List String) (outcome : CmdResult) :
    (pacman args outcome = .ok () ↔ outcome = .exited (some 0)) ∧
    (∀ e, pacman args outcome = .error (.externalCmd e) ↔ outcome = .spawnErr e) ∧
    (pacman args outcome = .error .misc ↔ ∃ c, outcome = .exited c ∧ c ≠ some 0) := by
  cases outcome with
  | spawnErr e => simp [pacman]
  | exited c =>
    by_cases hc : c = some 0
    · subst hc
      simp [pacman, statusSuccess]
    · simp [pacman, statusSuccess, hc]

/-- C7: on every failure of the inner elevated call the tarball wrapper
returns the tarball-install failure kind and the repo wrapper the
repo-install failure kind; neither wrapper can ever surface the raw
spawn-failure or generic-failure kind. -/
theorem install_wrappers_error_kind (flags args : List String) (outcome : CmdResult) :
    ((pacman_install_from_tarball flags args outcome).1 = .ok () ∨
      (pacman_install_from_tarball flags args outcome).1 = .error .installFromTarball) ∧
    ((pacman_install_from_repos flags args outcome).1 = .ok () ∨
      (pacman_install_from_repos flags args outcome).1 = .error .installFromRepos) ∧
    (∀ e, sudo_pacman "-U" flags args outcome = .error e →
      (pacman_install_from_tarball flags args outcome).1 = .error .installFromTarball) ∧
    (∀ e, sudo_pacman "-S" flags args outcome = .error e →
      (pacman_install_from_repos flags args outcome).1 = .error .installFromRepos) := by
  cases outcome with
  | spawnErr e =>
    simp [pacman_install_from_tarball, pacman_install_from_repos, sudo_pacman,
      Except.mapError]
  | exited c =>
    by_cases hc : statusSuccess c = true
    · simp [pacman_install_from_tarball, pacman_install_from_repos, sudo_pacman,
        Except.mapError, hc]
    · simp [pacman_install_from_tarball, pacman_install_from_repos, sudo_pacman,
        Except.mapError, hc]

/-- C7 witness: with a spawn failure as the inner outcome, the wrappers
return their dedicated failure kinds. -/
theorem install_wrappers_error_kind_witness :
    (pacman_install_from_tarball [] ["foo.pkg.tar"] (.spawnErr "oops")).1 =
      .error .installFromTarball ∧
    (pacman_install_from_repos [] ["foo"] (.spawnErr "oops")).1 =
      .error .installFromRepos :=
  ⟨(install_wrappers_error_kind [] ["foo.pkg.tar"] (.spawnErr "oops")).2.2.1
      (.externalCmd "oops") rfl,
    (install_wrappers_error_kind [] ["foo"] (.spawnErr "oops")).2.2.2
      (.externalCmd "oops") rfl⟩

/-- C6 counterexample: with the spawn of the elevated call failing, the
tarball wrapper discards the resulting spawn-failure error (whose
diagnostic hook would log the I/O cause) yet the wrapper call emits an
empty log, so the original failure is not logged before being
discarded. -/
theorem c6_counterexample : ¬ loggedBeforeDiscard := by
  intro h
  have h1 := (h [] [] (.spawnErr "permission denied")
      (.externalCmd "permission denied")).1 rfl "permission denied"
      (by simp [PacError.nested])
  simp [pacman_install_from_tarball] at h1

/-- C6 amended: whenever the inner elevated call fails, both wrappers
substitute their higher-level failure kind and discard the original
failure without logging it: the wrapper call emits no diagnostic-log
entries, and the diagnostic hooks of the substituted kinds themselves log
nothing, so the discarded detail never reaches the log. -/
theorem wrappers_discard_without_logging (flags args : List String)
    (outcome : CmdResult) (e : PacError)
    (h : sudo_pacman "-U" flags args outcome = .error e) :
    (pacman_install_from_tarball flags args outcome).1 = .error .installFromTarball ∧
    (pacman_install_from_tarball flags args outcome).2 = [] ∧
    (pacman_install_from_repos flags args outcome).1 = .error .installFromRepos ∧
    (pacman_install_from_repos flags args outcome).2 = [] ∧
    PacError.nested .installFromTarball = [] ∧
    PacError.nested .installFromRepos = [] := by
  have h2 : sudo_pacman "-S" flags args outcome = .error e := h
  refine ⟨?_, rfl, ?_, rfl, rfl, rfl⟩ <;>
    simp [pacman_install_from_tarball, pacman_install_from_repos, h, h2,
      Except.mapError]

/-- C6 amended witness: a run of the elevated call that exits with code 1
yields the substituted failure kinds and an empty log. -/
theorem wrappers_discard_without_logging_witness :
    (pacman_install_from_tarball [] ["firefox"] (.exited (some 1))).1 =
      .error .installFromTarball ∧
    (pacman_install_from_tarball [] ["firefox"] (.exited (some 1))).2 = [] ∧
    (pacman_install_from_repos [] ["firefox"] (.exited (some 1))).1 =
      .error .installFromRepos ∧
    (pacman_install_from_repos [] ["firefox"] (.exited (some 1))).2 = [] ∧
    PacError.nested .installFromTarball = [] ∧
    PacError.nested .installFromRepos = [] :=
  wrappers_discard_without_logging [] ["firefox"] (.exited (some 1)) .misc rfl

/-- C1 counterexample: under a concrete valid loader, the aggregate with
zero sub-errors renders as the header followed by a newline and an empty
line (the source inserts an empty string after the header before
interspersing newlines), so no list of N+1 non-empty lines reproduces the
rendering: the claim fails at N equal to 0. -/
theorem c1_counterexample :
    ValidLoader exampleLoader ∧
    ¬ aggregateClaim exampleInner exampleLoader ([] : List (DepsError Unit)) := by
  constructor
  · intro id args hid
    have hall : ∀ x ∈ auraMsgIds, x ≠ "" := by decide
    simpa [exampleLoader] using hall id hid
  · rintro ⟨lines, h1, h2, h3, h4, h5⟩
    have hlen : lines.length = 1 := by simpa using h2
    obtain ⟨a, rfl⟩ := List.length_eq_one.mp hlen
    have ha : a = "dep-multi" := by simpa [exampleLoader] using h4
    subst ha
    have hval : DepsError.localise exampleInner exampleLoader
        (.resolutions ([] : List (DepsError Unit))) = "dep-multi\n" := by
      simp [DepsError.localise, DepsError.localiseBullets, exampleLoader]
      rfl
    rw [hval] at h1
    exact absurd (h1.trans rfl) (by decide)

/-- C1 amended: rendering the aggregate of N sub-errors produces N+2
lines joined by single newline separators with no separator after the
last line: line 1 is the fixed header message, line 2 is empty, and lines
3 to N+2 are the dash-prefixed bullets holding each sub-error's recursive
rendering, in input order. -/
theorem aggregate_renders_header_blank_bullets {E : Type}
    (le : E → Fll → String) (fll : Fll) (es : List (DepsError E)) :
    ∃ lines : List String,
      DepsError.localise le fll (.resolutions es) =
        String.join (List.intersperse "\n" lines) ∧
      lines.length = es.length + 2 ∧
      lines.head? = some (fll "dep-multi" []) ∧
      lines.drop 1 = "" :: es.map (fun e => " - " ++ DepsError.localise le fll e) := by
  refine ⟨fll "dep-multi" [] :: "" ::
      es.map (fun e => " - " ++ DepsError.localise le fll e), ?_, by simp, rfl, rfl⟩
  simp [DepsError.localise, localiseBullets_eq_map]

/-- C8: for every valid bound loader, every variant of every renderable
error kind localises to exactly one non-empty string; the renderers are
total functions into String (there is no failure path and no fallback to
raw debug text), and wrapping variants delegate to renderings that are
themselves non-empty. -/
theorem render_totality (fll : Fll) (hf : ValidLoader fll) :
    (∀ g : GitError, g.localise fll ≠ "") ∧
    (∀ a : AurError, a.localise fll ≠ "") ∧
    (∀ p : PacError, p.localise fll ≠ "") ∧
    (∀ (E : Type) (le : E → Fll → String),
      (∀ e : E, le e fll ≠ "") →
        ∀ d : DepsError E, DepsError.localise le fll d ≠ "") := by
  have hgit : ∀ g : GitError, g.localise fll ≠ "" := by
    intro g
    cases g <;> exact hf _ _ (by decide)
  refine ⟨hgit, ?_, ?_, ?_⟩
  · intro a
    cases a with
    | git g => simpa [AurError.localise] using hgit g
    | faurFetch p => exact hf _ _ (by decide)
    | packageDoesNotExist p => exact hf _ _ (by decide)
    | tooManyFaurResults p => exact hf _ _ (by decide)
  · intro p
    cases p <;> exact hf _ _ (by decide)
  · intro E le hle d
    cases d with
    | poisonedMutex => simp only [DepsError.localise]; exact hf _ _ (by decide)
    | r2d2 e => simp only [DepsError.localise]; exact hf _ _ (by decide)
    | srcinfo p e => simp only [DepsError.localise]; exact hf _ _ (by decide)
    | git e => simpa [DepsError.localise] using hgit e
    | resolutions es =>
      simp only [DepsError.localise]
      exact join_intersperse_cons_ne _ _ _ (hf _ _ (by decide))
    | doesntExist p => simp only [DepsError.localise]; exact hf _ _ (by decide)
    | doesntExistWithParent a b =>
      simp only [DepsError.localise]; exact hf _ _ (by decide)
    | malformedGraph => simp only [DepsError.localise]; exact hf _ _ (by decide)
    | cyclicDep p => simp only [DepsError.localise]; exact hf _ _ (by decide)
    | faur e => simpa [DepsError.localise] using hle e

/-- C8 witness: a concrete valid loader renders concrete variants of each
renderable error kind, including a nested aggregate, to non-empty
strings. -/
theorem render_totality_witness :
    GitError.localise (.clone "/tmp/aura") exampleLoader ≠ "" ∧
    AurError.localise (.faurFetch "aura") exampleLoader ≠ "" ∧
    PacError.localise .misc exampleLoader ≠ "" ∧
    DepsError.localise exampleInner exampleLoader
      (.resolutions [.poisonedMutex, .faur ()]) ≠ "" := by
  have hv : ValidLoader exampleLoader := by
    intro id args hid
    have hall : ∀ x ∈ auraMsgIds, x ≠ "" := by decide
    simpa [exampleLoader] using hall id hid
  have h := render_totality exampleLoader hv
  exact ⟨h.1 _, h.2.1 _, h.2.2.1 _,
    h.2.2.2 Unit exampleInner (fun _ => (by decide : ("inner" : String) ≠ "")) _⟩

/-- C2: the Consistency Checker panics exactly when some available
language other than the base holds a message id absent from the base
catalog; the base language itself can never trigger it, so passing the
check is exactly the catalog-completeness subset invariant over the
non-base languages. -/
theorem checker_iff_subset_violation (entries : List String) (store : CatalogStore) :
    no_extra_localizations entries store = true ↔
      ∃ lang ∈ available_languages entries, lang ≠ baseTag ∧
        ∃ m ∈ (store lang).getD [], m ∉ (store baseTag).getD [] := by
  unfold no_extra_localizations
  rw [List.any_eq_true]
  constructor
  · rintro ⟨lang, hlang, hany⟩
    rw [List.any_eq_true] at hany
    obtain ⟨m, hm, hnc⟩ := hany
    have hmem : m ∉ (store baseTag).getD [] := by simpa using hnc
    refine ⟨lang, hlang, ?_, m, hm, hmem⟩
    rintro rfl
    exact hmem hm
  · rintro ⟨lang, hlang, _, m, hm, hnm⟩
    refine ⟨lang, hlang, ?_⟩
    rw [List.any_eq_true]
    exact ⟨m, hm, by simpa using hnm⟩

/-- C3 counterexample: two embedded entries sharing the tag prefix en-US
survive the scan twice; the source sorts but never deduplicates, so the
returned sequence is neither duplicate-free nor strictly ascending. -/
theorem c3_counterexample :
    available_languages ["en-US/aura.ftl", "en-US/extra.ftl"] = ["en-US", "en-US"] ∧
    ¬ (available_languages ["en-US/aura.ftl", "en-US/extra.ftl"]).Nodup ∧
    ¬ List.Sorted (· < ·) (available_languages ["en-US/aura.ftl", "en-US/extra.ftl"]) := by
  have h : available_languages ["en-US/aura.ftl", "en-US/extra.ftl"] =
      ["en-US", "en-US"] := by
    simp [available_languages, tagSlice, parseLangTag, List.insertionSort,
      List.orderedInsert, String.le_iff_toList_le]
  refine ⟨h, ?_, ?_⟩ <;> rw [h]
  · decide
  · simp [List.sorted_cons, String.lt_iff_toList_lt]

/-- C3 amended: available_languages returns the parseable fixed-width tag
prefixes sorted in ascending order; there is no deduplication step, so the
result is a permutation of the surviving prefixes, and it is strictly
ascending (hence duplicate-free) exactly on the strength of the surviving
prefixes being pairwise distinct. -/
theorem available_languages_sorted (entries : List String) :
    List.Sorted (· ≤ ·) (available_languages entries) ∧
    (available_languages entries).Perm
      (entries.filterMap (fun l => parseLangTag (tagSlice l))) ∧
    ((entries.filterMap (fun l => parseLangTag (tagSlice l))).Nodup →
      List.Sorted (· < ·) (available_languages entries)) := by
  refine ⟨List.sorted_insertionSort _ _, List.perm_insertionSort _ _, ?_⟩
  intro hnd
  have hsorted : List.Sorted (· ≤ ·) (available_languages entries) :=
    List.sorted_insertionSort _ _
  have hnd2 : (available_languages entries).Nodup :=
    ((List.perm_insertionSort _ _).nodup_iff).mpr hnd
  exact (List.Pairwise.and hsorted hnd2).imp
    (fun hab => lt_of_le_of_ne hab.1 hab.2)

/-- C3 amended witness: with one entry per language and distinct
prefixes, the scan returns a strictly ascending sequence. -/
theorem available_languages_sorted_witness :
    List.Sorted (· < ·) (available_languages ["de-DE/aura.ftl", "en-US/aura.ftl"]) :=
  (available_languages_sorted ["de-DE/aura.ftl", "en-US/aura.ftl"]).2.2 (by decide)

/-- C4: when the base catalog is loadable, load with a requested tag
succeeds, binds to the requested tag when a catalog exists for it and to
the base tag otherwise, and disables bidirectional isolation in every
case. -/
theorem load_binds_requested_or_base (store : CatalogStore) (tag : String)
    (hbase : (store baseTag).isSome = true) :
    ∃ l, load store (some tag) = .ok l ∧ l.useIsolating = false ∧
      l.current = if (store tag).isSome then tag else baseTag := by
  obtain ⟨cb, hcb⟩ := Option.isSome_iff_exists.mp hbase
  cases hst : store tag with
  | some c =>
    refine ⟨{ current := tag, fallback := baseTag, useIsolating := false },
      ?_, rfl, ?_⟩
    · simp [load, load_languages, fluent_language_loader, hst]
    · simp [hst]
  | none =>
    refine ⟨{ current := baseTag, fallback := baseTag, useIsolating := false },
      ?_, rfl, ?_⟩
    · simp [load, load_languages, fluent_language_loader, hst, hcb]
    · simp [hst]

/-- C4 witness: over a store bundling catalogs for en-US and de-DE only,
a request for ja-JP still succeeds bound to the base tag, and a request
for de-DE binds to de-DE; isolation is off in both. -/
theorem load_binds_witness :
    (∃ l, load exampleStore (some "ja-JP") = .ok l ∧ l.useIsolating = false ∧
      l.current = if (exampleStore "ja-JP").isSome then "ja-JP" else baseTag) ∧
    (∃ l, load exampleStore (some "de-DE") = .ok l ∧ l.useIsolating = false ∧
      l.current = if (exampleStore "de-DE").isSome then "de-DE" else baseTag) :=
  ⟨load_binds_requested_or_base exampleStore "ja-JP" (by decide),
   load_binds_requested_or_base exampleStore "de-DE" (by decide)⟩

/-- C5: load with no requested language is the same computation as load
with the base tag requested, and it succeeds whenever the base catalog is
loadable (over the bundled catalogs, always). -/
theorem load_none_eq_load_base (store : CatalogStore) :
    load store none = load store (some baseTag) ∧
    ((store baseTag).isSome = true → ∃ l, load store none = .ok l) := by
  refine ⟨rfl, ?_⟩
  intro h
  obtain ⟨c, hc⟩ := Option.isSome_iff_exists.mp h
  exact ⟨{ current := baseTag, fallback := baseTag, useIsolating := false },
    by simp [load, load_languages, fluent_language_loader, hc]⟩

/-- C5 witness: over the example store the two calls agree and load of
none succeeds. -/
theorem load_none_witness :
    load exampleStore none = load exampleStore (some baseTag) ∧
    ∃ l, load exampleStore none = .ok l :=
  ⟨(load_none_eq_load_base exampleStore).1,
   (load_none_eq_load_base exampleStore).2 (by decide)⟩

/-- When every listed language has a loadable catalog, the fail-fast
collection succeeds and its keys are exactly the listed tags, in order. -/
theorem load_all_go_ok (store : CatalogStore) (langs : List String)
    (h : ∀ lang ∈ langs, (store lang).isSome = true) :
    ∃ m, load_all_go store langs = .ok m ∧ m.map Prod.fst = langs := by
  induction langs with
  | nil => exact ⟨[], rfl, rfl⟩
  | cons lang rest ih =>
    obtain ⟨c, hc⟩ := Option.isSome_iff_exists.mp (h lang (List.mem_cons_self _ _))
    obtain ⟨m, hm, hkeys⟩ := ih (fun l hl => h l (List.mem_cons_of_mem _ hl))
    refine ⟨(lang, { current := lang, fallback := baseTag, useIsolating := true }) :: m,
      ?_, ?_⟩
    · simp [load_all_go, load_languages, fluent_language_loader, hc, hm]
    · simp [hkeys]

/-- If any listed language's catalog load fails, the fail-fast collection
fails as a whole. -/
theorem load_all_go_error (store : CatalogStore) (langs : List String)
    (h : ∃ lang ∈ langs, ∃ e,
      load_languages store fluent_language_loader lang = .error e) :
    ∃ e, load_all_go store langs = .error e := by
  induction langs with
  | nil =>
    obtain ⟨l, hl, _⟩ := h
    exact absurd hl (List.not_mem_nil l)
  | cons lang rest ih =>
    cases hll : load_languages store fluent_language_loader lang with
    | error e => exact ⟨e, by simp [load_all_go, hll]⟩
    | ok l =>
      obtain ⟨lang2, hmem, e2, he2⟩ := h
      rcases List.mem_cons.mp hmem with rfl | hmem2
      · rw [hll] at he2
        cases he2
      · obtain ⟨e3, he3⟩ := ih ⟨lang2, hmem2, e2, he2⟩
        exact ⟨e3, by simp [load_all_go, hll, he3]⟩

/-- C9: when each available language's catalog loads, load_all returns a
mapping whose keys are exactly the tags of available_languages; and if
any individual language's catalog load fails, load_all fails as a whole,
returning no partial mapping. -/
theorem load_all_spec (entries : List String) (store : CatalogStore) :
    ((∀ lang ∈ available_languages entries, (store lang).isSome = true) →
      ∃ m, load_all entries store = .ok m ∧
        m.map Prod.fst = available_languages entries) ∧
    ((∃ lang ∈ available_languages entries, ∃ e,
        load_languages store fluent_language_loader lang = .error e) →
      ∃ e, load_all entries store = .error e) :=
  ⟨fun h => load_all_go_ok store _ h, fun h => load_all_go_error store _ h⟩

/-- C9 witness: over the example store both branches are realized at
concrete inputs: full success with matching keys, and whole-call failure
when a language cannot load. -/
theorem load_all_spec_witness :
    (∃ m, load_all ["de-DE/aura.ftl", "en-US/aura.ftl"] exampleStore = .ok m ∧
      m.map Prod.fst = available_languages ["de-DE/aura.ftl", "en-US/aura.ftl"]) ∧
    (∃ e, load_all ["ja-JP/aura.ftl"] emptyStore = .error e) :=
  ⟨(load_all_spec ["de-DE/aura.ftl", "en-US/aura.ftl"] exampleStore).1
      (by
        simp [available_languages, tagSlice, parseLangTag, List.insertionSort,
          List.orderedInsert, String.le_iff_toList_le]
        decide),
   (load_all_spec ["ja-JP/aura.ftl"] emptyStore).2
      ⟨"ja-JP", by decide, .languageMissing, rfl⟩⟩

end Aura
